import Mathlib

/-!
Shallow embedding of the PCA dashboard (src/pca_dashboard.py): the data
model (records with numeric and string fields, per-column dtypes as in a
pandas DataFrame), the range filter `filter_data_by_range`, the inline
search filter, the selection-event handlers of `main`, and the table
rendering step, together with theorems settling the specification claims.
-/

deriving instance DecidableEq for Except

namespace Pca

/-- A scalar cell value: a string or a number (pandas object vs numeric). -/
inductive Value where
  | vstr (s : String)
  | vnum (q : ℚ)
deriving DecidableEq

/-- A record: an ordered association list from field name to value. -/
abbrev Row := List (String × Value)

/-- A DataFrame: column names, the names of the object-dtype (text)
columns — fixed at construction time and preserved by row filtering,
as pandas dtypes are — and the rows. -/
structure DFrame where
  cols : List String
  textCols : List String
  rows : List Row
deriving DecidableEq

/-- Numeric access to a field, as `df['c']` on a numeric column. -/
def rowNum (r : Row) (c : String) : ℚ :=
  match List.lookup c r with
  | some (Value.vnum q) => q
  | _ => 0

/-- Whether a value is a string (drives object dtype detection). -/
def Value.isStr : Value → Bool
  | .vstr _ => true
  | .vnum _ => false

/-- DataFrame construction: a column has object dtype when some row holds
a string in it (pandas infers object dtype for any column containing a
non-numeric value). -/
def mkFrame (cols : List String) (rows : List Row) : DFrame :=
  { cols := cols
    textCols := cols.filter (fun c => rows.any (fun r =>
      match List.lookup c r with
      | some v => v.isStr
      | none => false))
    rows := rows }

/-- `filter_data_by_range(df, x_range, y_range)` (lines 50-59): returns
`df` unchanged when either range is `None`; otherwise keeps the rows whose
`Xpca` and `Ypca` lie inside the closed bounds, in order. -/
def filter_data_by_range (df : DFrame) (x_range y_range : Option (ℚ × ℚ)) : DFrame :=
  match x_range, y_range with
  | some xr, some yr =>
      { df with rows := df.rows.filter (fun r =>
          decide (xr.1 ≤ rowNum r "Xpca") && decide (rowNum r "Xpca" ≤ xr.2) &&
          decide (yr.1 ≤ rowNum r "Ypca") && decide (rowNum r "Ypca" ≤ yr.2)) }
  | _, _ => df

/-- Stringification of a cell, as `astype(str)` applied to a column. -/
def Value.toStr : Value → String
  | .vstr s => s
  | .vnum q => toString q

/-- Lower-cased character list of a string (case-insensitive matching,
as `str.lower()` / `case=False`). -/
def lowerChars (s : String) : List Char := s.data.map Char.toLower

/-- `ndl` occurs at the start of `hay`. -/
def prefOf : List Char → List Char → Bool
  | [], _ => true
  | _ :: _, [] => false
  | n :: ns, h :: hs => n == h && prefOf ns hs

/-- `ndl` occurs contiguously somewhere inside `hay`. -/
def subOf (ndl : List Char) : List Char → Bool
  | [] => prefOf ndl []
  | h :: hs => prefOf ndl (h :: hs) || subOf ndl hs

/-- One cell matches the search term (`x.str.contains(term, case=False)`,
line 263, after `astype(str)`). -/
def matchesTerm (term : String) (v : Value) : Bool :=
  subOf (lowerChars term) (lowerChars v.toStr)

/-- A row matches when ANY of the text columns matches (`any(axis=1)`). -/
def rowMatches (textCols : List String) (term : String) (r : Row) : Bool :=
  textCols.any (fun c =>
    match List.lookup c r with
    | some v => matchesTerm term v
    | none => false)

/-- The search filter (lines 256-266): an empty term is skipped
(`if search_term:`); with a non-empty term, if the frame has at least one
object-dtype column the rows are filtered by the any-text-column match,
and otherwise (`len(text_columns) > 0` false) the frame passes through
unchanged. -/
def applySearch (df : DFrame) (term : String) : DFrame :=
  if term = "" then df
  else if 0 < df.textCols.length then
    { df with rows := df.rows.filter (rowMatches df.textCols term) }
  else df

/-- A box or lasso payload: optional `'x'` and `'y'` coordinate lists
(`none` models a missing dictionary key). -/
structure BoxData where
  x : Option (List ℚ)
  y : Option (List ℚ)
deriving DecidableEq

/-- A selected point, as one entry of `event.selection.points`. -/
structure SelPoint where
  x : ℚ
  y : ℚ
deriving DecidableEq

/-- The selection payload of a chart event: lists of box payloads,
selected points, and lasso payloads. -/
structure Selection where
  box : List BoxData
  points : List SelPoint
  lasso : List BoxData
deriving DecidableEq

/-- The View State held in `st.session_state`: the two optional ranges,
each `some (lo, hi)` modelling the Python list `[lo, hi]`. -/
structure VState where
  x_range : Option (ℚ × ℚ)
  y_range : Option (ℚ × ℚ)
deriving DecidableEq

/-- Python `min` over a list: `none` on the empty list (where Python
raises `ValueError`). -/
def listMin : List ℚ → Option ℚ
  | [] => none
  | x :: xs => some (xs.foldl min x)

/-- Python `max` over a list, `none` on the empty list. -/
def listMax : List ℚ → Option ℚ
  | [] => none
  | x :: xs => some (xs.foldl max x)

/-- The shared body of the box handler (lines 179-196) and the lasso
handler (lines 221-235): when both `'x'` and `'y'` keys are present the
new ranges are `[min, max]` of each coordinate list (`ValueError`, i.e.
`.error`, if a present list is empty); a payload missing a key leaves the
state untouched. -/
def applyBoxPayload (b : BoxData) (s : VState) : Except Unit VState :=
  match b.x, b.y with
  | some xs, some ys =>
    match listMin xs, listMax xs, listMin ys, listMax ys with
    | some x0, some x1, some y0, some y1 =>
        .ok { x_range := some (x0, x1), y_range := some (y0, y1) }
    | _, _, _, _ => .error ()
  | _, _ => .ok s

/-- The points branch of the selection handler (lines 198-219): the
bounding box of the selected points, padded by 0.1 per axis when exactly
one point is selected (`if len(points) == 1`). -/
def pointsRange (p : SelPoint) (ps : List SelPoint) : VState :=
  let x0 := (ps.map SelPoint.x).foldl min p.x
  let x1 := (ps.map SelPoint.x).foldl max p.x
  let y0 := (ps.map SelPoint.y).foldl min p.y
  let y1 := (ps.map SelPoint.y).foldl max p.y
  if (p :: ps).length = 1 then
    { x_range := some (x0 - 0.1, x1 + 0.1)
      y_range := some (y0 - 0.1, y1 + 0.1) }
  else
    { x_range := some (x0, x1), y_range := some (y0, y1) }

/-- The selection-event dispatch of `main` (lines 179-235): the `if`
chain tries `box`, then `points`, then `lasso` (a Python list being
truthy exactly when non-empty, and only the first box/lasso payload is
read). -/
def handleSelection (ev : Option Selection) (s : VState) : Except Unit VState :=
  match ev with
  | none => .ok s
  | some sel =>
    match sel.box with
    | b :: _ => applyBoxPayload b s
    | [] =>
      match sel.points with
      | p :: ps => .ok (pointsRange p ps)
      | [] =>
        match sel.lasso with
        | l :: _ => applyBoxPayload l s
        | [] => .ok s

/-- The user events that touch the stored ranges: a chart selection
event, or the Reset Zoom button. -/
inductive UEvent where
  | select (ev : Option Selection)
  | reset

/-- One render pass's effect on the stored ranges: selection dispatch, or
the Reset Zoom button (lines 138-141) clearing both ranges to `None`. -/
def stepState (s : VState) (e : UEvent) : Except Unit VState :=
  match e with
  | .select ev => handleSelection ev s
  | .reset => .ok { x_range := none, y_range := none }

/-- A sequence of render passes, stopping at the first raised error. -/
def runEvents (s : VState) (es : List UEvent) : Except Unit VState :=
  match es with
  | [] => .ok s
  | e :: rest =>
    match stepState s e with
    | .ok s' => runEvents s' rest
    | .error u => .error u

/-- `display_df[selected_columns]` on one row: the chosen columns, in
selection order, with their values. -/
def projectCols (cols : List String) (r : Row) : Row :=
  cols.filterMap (fun c => (List.lookup c r).map (fun v => (c, v)))

/-- Row comparison used by `sort_values('Xpca')`. -/
def rowLE (r1 r2 : Row) : Prop := rowNum r1 "Xpca" ≤ rowNum r2 "Xpca"

instance : DecidableRel rowLE := fun r1 r2 =>
  inferInstanceAs (Decidable (rowNum r1 "Xpca" ≤ rowNum r2 "Xpca"))

instance : IsTotal Row rowLE := ⟨fun r1 r2 => le_total (rowNum r1 "Xpca") (rowNum r2 "Xpca")⟩

instance : IsTrans Row rowLE := ⟨fun _ _ _ h1 h2 => le_trans h1 h2⟩

/-- Ascending sort of the projected rows by `Xpca`. -/
def sortRows (rows : List Row) : List Row := rows.insertionSort rowLE

/-- The table rendering step (lines 279-285), reached when the displayed
frame and the column selection are both non-empty:
`display_df[selected_columns].sort_values('Xpca')` — a `KeyError`
(`.error`) when `'Xpca'` is not among the selected columns. -/
def renderTable (rows : List Row) (cols : List String) : Except Unit (List Row) :=
  if "Xpca" ∈ cols then .ok (sortRows (rows.map (projectCols cols)))
  else .error ()

/-- A small concrete frame with only numeric columns. -/
def exRows : List Row :=
  [[("Xpca", Value.vnum 0), ("Ypca", Value.vnum 0)],
   [("Xpca", Value.vnum 10), ("Ypca", Value.vnum 10)]]

/-- The frame built from `exRows`; it has no object-dtype columns. -/
def exDf : DFrame := mkFrame ["Xpca", "Ypca"] exRows

lemma foldl_min_le_init (xs : List ℚ) : ∀ x : ℚ, xs.foldl min x ≤ x := by
  induction xs with
  | nil => intro x; simp
  | cons y ys ih =>
    intro x
    calc (y :: ys).foldl min x = ys.foldl min (min x y) := rfl
      _ ≤ min x y := ih _
      _ ≤ x := min_le_left _ _

lemma init_le_foldl_max (xs : List ℚ) : ∀ x : ℚ, x ≤ xs.foldl max x := by
  induction xs with
  | nil => intro x; simp
  | cons y ys ih =>
    intro x
    calc x ≤ max x y := le_max_left _ _
      _ ≤ ys.foldl max (max x y) := ih _
      _ = (y :: ys).foldl max x := rfl

lemma foldl_min_le_all (xs : List ℚ) :
    ∀ x z : ℚ, z ∈ x :: xs → xs.foldl min x ≤ z := by
  induction xs with
  | nil =>
    intro x z hz
    simp only [List.mem_singleton] at hz
    simp [hz]
  | cons y ys ih =>
    intro x z hz
    have hfold : (y :: ys).foldl min x = ys.foldl min (min x y) := rfl
    rcases List.mem_cons.mp hz with hzx | hz'
    · rw [hfold, hzx]
      exact le_trans (foldl_min_le_init ys _) (min_le_left _ _)
    · rcases List.mem_cons.mp hz' with hzy | hz''
      · rw [hfold, hzy]
        exact le_trans (foldl_min_le_init ys _) (min_le_right _ _)
      · rw [hfold]
        exact ih (min x y) z (List.mem_cons_of_mem _ hz'')

lemma all_le_foldl_max (xs : List ℚ) :
    ∀ x z : ℚ, z ∈ x :: xs → z ≤ xs.foldl max x := by
  induction xs with
  | nil =>
    intro x z hz
    simp only [List.mem_singleton] at hz
    simp [hz]
  | cons y ys ih =>
    intro x z hz
    have hfold : (y :: ys).foldl max x = ys.foldl max (max x y) := rfl
    rcases List.mem_cons.mp hz with hzx | hz'
    · rw [hfold, hzx]
      exact le_trans (le_max_left _ _) (init_le_foldl_max ys _)
    · rcases List.mem_cons.mp hz' with hzy | hz''
      · rw [hfold, hzy]
        exact le_trans (le_max_right _ _) (init_le_foldl_max ys _)
      · rw [hfold]
        exact ih (max x y) z (List.mem_cons_of_mem _ hz'')

lemma foldl_min_mem (xs : List ℚ) : ∀ x : ℚ, xs.foldl min x ∈ x :: xs := by
  induction xs with
  | nil => intro x; simp
  | cons y ys ih =>
    intro x
    have hfold : (y :: ys).foldl min x = ys.foldl min (min x y) := rfl
    rw [hfold]
    rcases List.mem_cons.mp (ih (min x y)) with hm | hm
    · rcases min_choice x y with hc | hc
      · rw [hm, hc]; exact List.mem_cons_self _ _
      · rw [hm, hc]; exact List.mem_cons_of_mem _ (List.mem_cons_self _ _)
    · exact List.mem_cons_of_mem _ (List.mem_cons_of_mem _ hm)

lemma foldl_max_mem (xs : List ℚ) : ∀ x : ℚ, xs.foldl max x ∈ x :: xs := by
  induction xs with
  | nil => intro x; simp
  | cons y ys ih =>
    intro x
    have hfold : (y :: ys).foldl max x = ys.foldl max (max x y) := rfl
    rw [hfold]
    rcases List.mem_cons.mp (ih (max x y)) with hm | hm
    · rcases max_choice x y with hc | hc
      · rw [hm, hc]; exact List.mem_cons_self _ _
      · rw [hm, hc]; exact List.mem_cons_of_mem _ (List.mem_cons_self _ _)
    · exact List.mem_cons_of_mem _ (List.mem_cons_of_mem _ hm)

lemma listMin_le_listMax {xs : List ℚ} {m M : ℚ}
    (hm : listMin xs = some m) (hM : listMax xs = some M) : m ≤ M := by
  cases xs with
  | nil => simp [listMin] at hm
  | cons x l =>
    simp only [listMin, listMax, Option.some.injEq] at hm hM
    calc m = l.foldl min x := hm.symm
      _ ≤ x := foldl_min_le_init l x
      _ ≤ l.foldl max x := init_le_foldl_max l x
      _ = M := hM

/-- Claim C1: for every frame and every well-ordered range (degenerate
ranges included), `filter_data_by_range` returns exactly the rows whose
`Xpca` and `Ypca` lie in the closed intervals, as an ordered sub-sequence
(a sublist, hence preserving the original relative order). -/
theorem filter_range_exact (df : DFrame) (x0 x1 y0 y1 : ℚ)
    (_hx : x0 ≤ x1) (_hy : y0 ≤ y1) :
    (filter_data_by_range df (some (x0, x1)) (some (y0, y1))).cols = df.cols ∧
    (filter_data_by_range df (some (x0, x1)) (some (y0, y1))).rows.Sublist df.rows ∧
    ∀ r : Row,
      r ∈ (filter_data_by_range df (some (x0, x1)) (some (y0, y1))).rows ↔
        r ∈ df.rows ∧ x0 ≤ rowNum r "Xpca" ∧ rowNum r "Xpca" ≤ x1 ∧
          y0 ≤ rowNum r "Ypca" ∧ rowNum r "Ypca" ≤ y1 := by
  refine ⟨rfl, List.filter_sublist _, fun r => ?_⟩
  simp [filter_data_by_range, List.mem_filter, and_assoc]

/-- Witness for C1 at a degenerate range on a concrete frame. -/
theorem filter_range_exact_witness :
    ((0 : ℚ) ≤ 0 ∧ (0 : ℚ) ≤ 0) ∧
    ((filter_data_by_range exDf (some (0, 0)) (some (0, 0))).cols = exDf.cols ∧
     (filter_data_by_range exDf (some (0, 0)) (some (0, 0))).rows.Sublist exDf.rows ∧
     ∀ r : Row,
       r ∈ (filter_data_by_range exDf (some (0, 0)) (some (0, 0))).rows ↔
         r ∈ exDf.rows ∧ (0 : ℚ) ≤ rowNum r "Xpca" ∧ rowNum r "Xpca" ≤ 0 ∧
           (0 : ℚ) ≤ rowNum r "Ypca" ∧ rowNum r "Ypca" ≤ 0) :=
  ⟨⟨le_refl 0, le_refl 0⟩, filter_range_exact exDf 0 0 0 0 (le_refl 0) (le_refl 0)⟩

/-- Claim C7: the search filter is idempotent for every frame and term,
and the empty term is the identity. -/
theorem search_idempotent (df : DFrame) (term : String) :
    applySearch (applySearch df term) term = applySearch df term ∧
    applySearch df "" = df := by
  constructor
  · by_cases ht : term = ""
    · simp [applySearch, ht]
    · by_cases htc : 0 < df.textCols.length
      · rcases df with ⟨cols, tcs, rows⟩
        have htc' : 0 < tcs.length := htc
        have h1 : applySearch (DFrame.mk cols tcs rows) term
            = DFrame.mk cols tcs (rows.filter (rowMatches tcs term)) := by
          simp [applySearch, ht, htc']
        rw [h1]
        have h2 : applySearch (DFrame.mk cols tcs (rows.filter (rowMatches tcs term))) term
            = DFrame.mk cols tcs
                ((rows.filter (rowMatches tcs term)).filter (rowMatches tcs term)) := by
          simp [applySearch, ht, htc']
        rw [h2, List.filter_filter]
        simp
      · simp [applySearch, ht, htc]
  · simp [applySearch]

/-- A frame whose `label` column holds one string and one number, so the
column has object dtype while the second record's values are all
numeric. -/
def mixRows : List Row :=
  [[("label", Value.vstr "abc")], [("label", Value.vnum 5)]]

/-- The frame built from `mixRows`; its `label` column is string-typed. -/
def mixDf : DFrame := mkFrame ["label"] mixRows

/-- Claim C5 counterexample, refuting both halves of the claim. On the
all-numeric frame `exDf` (no object-dtype columns) the non-empty term
`"a"` returns the frame unchanged — in particular non-empty — where the
claim demands the empty dataset. And on `mixDf`, whose `label` column is
string-typed, the record `[("label", 5)]` — all of whose own values are
numeric, i.e. zero string-typed fields — IS included by the term `"5"`,
because `astype(str)` stringifies the numeric value sitting in the object
column before matching; the claim says such a record is never included. -/
theorem search_counterexample :
    (exDf.textCols = [] ∧ "a" ≠ "" ∧
      (applySearch exDf "a").rows ≠ [] ∧ applySearch exDf "a" = exDf) ∧
    (mixDf.textCols = ["label"] ∧ "5" ≠ "" ∧
      (∀ v ∈ [("label", Value.vnum 5)], Value.isStr v.2 = false) ∧
      [("label", Value.vnum 5)] ∈ (applySearch mixDf "5").rows) := by
  decide

/-- Claim C5 (amended): a record with zero string-typed fields can be
included by a non-empty term. On a frame with no string-typed columns the
search is skipped entirely, so any term — including a non-empty one —
returns the dataset unchanged (not the empty dataset); and even on a
frame that does have a string-typed column, a record holding only numeric
values is included when the stringified numeric it carries in that column
contains the term. -/
theorem search_no_text_identity (df : DFrame) (term : String)
    (h : df.textCols = []) :
    applySearch df term = df ∧
    (mixDf.textCols ≠ [] ∧ [("label", Value.vnum 5)] ∈ (applySearch mixDf "5").rows) := by
  constructor
  · by_cases ht : term = "" <;> simp [applySearch, ht, h]
  · decide

/-- Witness for the amended C5. -/
theorem search_no_text_identity_witness :
    exDf.textCols = [] ∧
    (applySearch exDf "hello" = exDf ∧
      (mixDf.textCols ≠ [] ∧ [("label", Value.vnum 5)] ∈ (applySearch mixDf "5").rows)) :=
  ⟨by decide, search_no_text_identity exDf "hello" (by decide)⟩

lemma runEvents_append (s : VState) (l1 l2 : List UEvent) :
    runEvents s (l1 ++ l2) =
      match runEvents s l1 with
      | .ok t => runEvents t l2
      | .error u => .error u := by
  induction l1 generalizing s with
  | nil => rfl
  | cons e rest ih =>
    show runEvents s (e :: (rest ++ l2)) = _
    simp only [runEvents]
    cases stepState s e with
    | ok t => exact ih t
    | error u => rfl

/-- Claim C6: `filter_data_by_range` with either range unset is the
identity; after a Reset Zoom transition — following any sequence of
selection events — both ranges are unset, and the filter then returns the
full frame unchanged. -/
theorem reset_unset_identity (df : DFrame) (xr yr : Option (ℚ × ℚ))
    (s s' : VState) (es : List (Option Selection))
    (h : runEvents s (es.map UEvent.select) = .ok s') :
    filter_data_by_range df none yr = df ∧
    filter_data_by_range df xr none = df ∧
    runEvents s (es.map UEvent.select ++ [UEvent.reset]) = .ok ⟨none, none⟩ ∧
    filter_data_by_range df none none = df := by
  refine ⟨rfl, ?_, ?_, rfl⟩
  · cases xr <;> rfl
  · rw [runEvents_append, h]
    rfl

/-- Witness for C6: a single-point selection followed by Reset Zoom. -/
theorem reset_unset_identity_witness :
    filter_data_by_range exDf none none = exDf ∧
    runEvents ⟨none, none⟩
        ([some (Selection.mk [] [⟨2, 3⟩] [])].map UEvent.select ++ [UEvent.reset])
      = .ok ⟨none, none⟩ :=
  let th := reset_unset_identity exDf none none ⟨none, none⟩
    ⟨some (2 - 0.1, 2 + 0.1), some (3 - 0.1, 3 + 0.1)⟩
    [some (Selection.mk [] [⟨2, 3⟩] [])] rfl
  ⟨th.1, th.2.2.1⟩

/-- The ordering invariant on a stored state: every set range has its
lower bound at most its upper bound. -/
def RangeOK (s : VState) : Prop :=
  (∀ a b : ℚ, s.x_range = some (a, b) → a ≤ b) ∧
  (∀ a b : ℚ, s.y_range = some (a, b) → a ≤ b)

lemma applyBoxPayload_rangeOK (b : BoxData) (s s' : VState) (hs : RangeOK s)
    (h : applyBoxPayload b s = .ok s') : RangeOK s' := by
  obtain ⟨obx, oby⟩ := b
  cases obx with
  | none =>
    simp only [applyBoxPayload] at h
    injection h with h'
    exact h' ▸ hs
  | some xs =>
    cases oby with
    | none =>
      simp only [applyBoxPayload] at h
      injection h with h'
      exact h' ▸ hs
    | some ys =>
      simp only [applyBoxPayload] at h
      split at h
      · rename_i x0 x1 y0 y1 hx0 hx1 hy0 hy1
        injection h with h'
        subst h'
        constructor
        · intro a b hab
          have hab' : x0 = a ∧ x1 = b := by simpa using hab
          obtain ⟨rfl, rfl⟩ := hab'
          exact listMin_le_listMax hx0 hx1
        · intro a b hab
          have hab' : y0 = a ∧ y1 = b := by simpa using hab
          obtain ⟨rfl, rfl⟩ := hab'
          exact listMin_le_listMax hy0 hy1
      · exact absurd h (by simp)

lemma pointsRange_rangeOK (p : SelPoint) (ps : List SelPoint) :
    RangeOK (pointsRange p ps) := by
  have hx01 : (ps.map SelPoint.x).foldl min p.x ≤ (ps.map SelPoint.x).foldl max p.x :=
    le_trans (foldl_min_le_init _ _) (init_le_foldl_max _ _)
  have hy01 : (ps.map SelPoint.y).foldl min p.y ≤ (ps.map SelPoint.y).foldl max p.y :=
    le_trans (foldl_min_le_init _ _) (init_le_foldl_max _ _)
  unfold pointsRange
  dsimp only
  split
  · constructor
    · intro a b hab
      have hab' : (ps.map SelPoint.x).foldl min p.x - 0.1 = a ∧
          (ps.map SelPoint.x).foldl max p.x + 0.1 = b := by simpa using hab
      obtain ⟨rfl, rfl⟩ := hab'
      linarith
    · intro a b hab
      have hab' : (ps.map SelPoint.y).foldl min p.y - 0.1 = a ∧
          (ps.map SelPoint.y).foldl max p.y + 0.1 = b := by simpa using hab
      obtain ⟨rfl, rfl⟩ := hab'
      linarith
  · constructor
    · intro a b hab
      have hab' : (ps.map SelPoint.x).foldl min p.x = a ∧
          (ps.map SelPoint.x).foldl max p.x = b := by simpa using hab
      obtain ⟨rfl, rfl⟩ := hab'
      exact hx01
    · intro a b hab
      have hab' : (ps.map SelPoint.y).foldl min p.y = a ∧
          (ps.map SelPoint.y).foldl max p.y = b := by simpa using hab
      obtain ⟨rfl, rfl⟩ := hab'
      exact hy01

lemma handleSelection_rangeOK (ev : Option Selection) (s s' : VState)
    (hs : RangeOK s) (h : handleSelection ev s = .ok s') : RangeOK s' := by
  cases ev with
  | none =>
    injection h with h'
    exact h' ▸ hs
  | some sel =>
    obtain ⟨bx, pts, ls⟩ := sel
    cases bx with
    | cons b bs => exact applyBoxPayload_rangeOK b s s' hs h
    | nil =>
      cases pts with
      | cons p ps =>
        injection h with h'
        exact h' ▸ pointsRange_rangeOK p ps
      | nil =>
        cases ls with
        | cons l ls2 => exact applyBoxPayload_rangeOK l s s' hs h
        | nil =>
          injection h with h'
          exact h' ▸ hs

lemma stepState_rangeOK (s : VState) (e : UEvent) (s' : VState)
    (hs : RangeOK s) (h : stepState s e = .ok s') : RangeOK s' := by
  cases e with
  | select ev => exact handleSelection_rangeOK ev s s' hs h
  | reset =>
    injection h with h'
    subst h'
    exact ⟨(fun a b hab => nomatch hab), (fun a b hab => nomatch hab)⟩

lemma runEvents_rangeOK (es : List UEvent) (s s' : VState)
    (hs : RangeOK s) (h : runEvents s es = .ok s') : RangeOK s' := by
  induction es generalizing s with
  | nil =>
    injection h with h'
    exact h' ▸ hs
  | cons e rest ih =>
    have h1 : (match stepState s e with
        | .ok t => runEvents t rest
        | .error u => (.error u : Except Unit VState)) = .ok s' := h
    cases hstep : stepState s e with
    | ok t =>
      rw [hstep] at h1
      exact ih t (stepState_rangeOK s e t hs hstep) h1
    | error u =>
      rw [hstep] at h1
      simp at h1

/-- Claim C8: starting from the initial unset state, every state
reachable through any sequence of selection / reset events — so every
range the handlers ever store, the single-point padding path included —
satisfies `xMin ≤ xMax` and `yMin ≤ yMax`. -/
theorem range_invariant (es : List UEvent) (s' : VState)
    (h : runEvents ⟨none, none⟩ es = .ok s') : RangeOK s' :=
  runEvents_rangeOK es ⟨none, none⟩ s'
    ⟨(fun _ _ hab => nomatch hab), (fun _ _ hab => nomatch hab)⟩ h

/-- Witness for C8: a single-point selection stores a well-ordered
padded range. -/
theorem range_invariant_witness :
    runEvents ⟨none, none⟩ [UEvent.select (some ⟨[], [⟨2, 3⟩], []⟩)]
      = .ok ⟨some (2 - 0.1, 2 + 0.1), some (3 - 0.1, 3 + 0.1)⟩ ∧
    RangeOK ⟨some (2 - 0.1, 2 + 0.1), some (3 - 0.1, 3 + 0.1)⟩ :=
  ⟨rfl, range_invariant [UEvent.select (some ⟨[], [⟨2, 3⟩], []⟩)] _ rfl⟩

/-- Claim C2: a box or lasso event carrying non-empty `x` and `y`
coordinate lists stores exactly the axis-aligned bounding box of the
vertices (`xMin`/`xMax`/`yMin`/`yMax` are the min/max of the lists), for
any prior state; in particular `Box{x:[1,1,5,5], y:[2,6,6,2]}` yields
the range `(1,5) × (2,6)`. -/
theorem box_lasso_bbox (a c : ℚ) (as cs : List ℚ) (s : VState) :
    ∃ x0 x1 y0 y1 : ℚ,
      handleSelection (some ⟨[⟨some (a :: as), some (c :: cs)⟩], [], []⟩) s
        = .ok ⟨some (x0, x1), some (y0, y1)⟩ ∧
      handleSelection (some ⟨[], [], [⟨some (a :: as), some (c :: cs)⟩]⟩) s
        = .ok ⟨some (x0, x1), some (y0, y1)⟩ ∧
      x0 ∈ a :: as ∧ (∀ z ∈ a :: as, x0 ≤ z) ∧
      x1 ∈ a :: as ∧ (∀ z ∈ a :: as, z ≤ x1) ∧
      y0 ∈ c :: cs ∧ (∀ z ∈ c :: cs, y0 ≤ z) ∧
      y1 ∈ c :: cs ∧ (∀ z ∈ c :: cs, z ≤ y1) ∧
      handleSelection (some ⟨[⟨some [1, 1, 5, 5], some [2, 6, 6, 2]⟩], [], []⟩) s
        = .ok ⟨some (1, 5), some (2, 6)⟩ := by
  refine ⟨as.foldl min a, as.foldl max a, cs.foldl min c, cs.foldl max c,
    rfl, rfl, foldl_min_mem as a, fun z hz => foldl_min_le_all as a z hz,
    foldl_max_mem as a, fun z hz => all_le_foldl_max as a z hz,
    foldl_min_mem cs c, fun z hz => foldl_min_le_all cs c z hz,
    foldl_max_mem cs c, fun z hz => all_le_foldl_max cs c z hz, ?_⟩
  show Except.ok (VState.mk (some (_, _)) (some (_, _))) = _
  norm_num [min_def, max_def]

/-- Claim C3: a `None` event, an event with all payload lists empty, and
a box or lasso event whose first payload is missing the `x` or the `y`
key are all handled as exact no-ops — the state is returned unchanged and
no error is raised — for every prior state (the malformed box case also
shadows any points or lasso data in the same event). -/
theorem malformed_noop (s : VState) (oy : Option (List ℚ)) (xs : List ℚ)
    (b2 : List BoxData) (ps : List SelPoint) (ls : List BoxData) :
    handleSelection none s = .ok s ∧
    handleSelection (some ⟨[], [], []⟩) s = .ok s ∧
    handleSelection (some ⟨⟨none, oy⟩ :: b2, ps, ls⟩) s = .ok s ∧
    handleSelection (some ⟨⟨some xs, none⟩ :: b2, ps, ls⟩) s = .ok s ∧
    handleSelection (some ⟨[], [], ⟨none, oy⟩ :: b2⟩) s = .ok s ∧
    handleSelection (some ⟨[], [], ⟨some xs, none⟩ :: b2⟩) s = .ok s :=
  ⟨rfl, rfl, rfl, rfl, rfl, rfl⟩

/-- Claim C4: a points event with exactly one point `(x, y)` stores the
degenerate bounding box padded by 0.1 on each side; with two or more
points no padding is applied and the stored range is the plain bounding
box of the coordinates; the single point `(2, 3)` yields
`(1.9, 2.1) × (2.9, 3.1)`. -/
theorem points_padding (x y : ℚ) (p q : SelPoint) (ps : List SelPoint) (s : VState) :
    handleSelection (some ⟨[], [⟨x, y⟩], []⟩) s
      = .ok ⟨some (x - 0.1, x + 0.1), some (y - 0.1, y + 0.1)⟩ ∧
    (∃ x0 x1 y0 y1 : ℚ,
      handleSelection (some ⟨[], p :: q :: ps, []⟩) s
        = .ok ⟨some (x0, x1), some (y0, y1)⟩ ∧
      x0 ∈ (p :: q :: ps).map SelPoint.x ∧
      (∀ z ∈ (p :: q :: ps).map SelPoint.x, x0 ≤ z) ∧
      x1 ∈ (p :: q :: ps).map SelPoint.x ∧
      (∀ z ∈ (p :: q :: ps).map SelPoint.x, z ≤ x1) ∧
      y0 ∈ (p :: q :: ps).map SelPoint.y ∧
      (∀ z ∈ (p :: q :: ps).map SelPoint.y, y0 ≤ z) ∧
      y1 ∈ (p :: q :: ps).map SelPoint.y ∧
      (∀ z ∈ (p :: q :: ps).map SelPoint.y, z ≤ y1)) ∧
    handleSelection (some ⟨[], [⟨2, 3⟩], []⟩) s
      = .ok ⟨some (1.9, 2.1), some (2.9, 3.1)⟩ := by
  refine ⟨rfl, ?_, ?_⟩
  · refine ⟨((q :: ps).map SelPoint.x).foldl min p.x,
      ((q :: ps).map SelPoint.x).foldl max p.x,
      ((q :: ps).map SelPoint.y).foldl min p.y,
      ((q :: ps).map SelPoint.y).foldl max p.y, rfl, ?_, ?_, ?_, ?_, ?_, ?_, ?_, ?_⟩
    · exact foldl_min_mem _ _
    · intro z hz
      exact foldl_min_le_all _ _ z hz
    · exact foldl_max_mem _ _
    · intro z hz
      exact all_le_foldl_max _ _ z hz
    · exact foldl_min_mem _ _
    · intro z hz
      exact foldl_min_le_all _ _ z hz
    · exact foldl_max_mem _ _
    · intro z hz
      exact all_le_foldl_max _ _ z hz
  · show Except.ok (pointsRange ⟨2, 3⟩ []) = _
    norm_num [pointsRange]

/-- Claim C9: in a single event carrying several selection shapes exactly
one is applied, with box taking precedence over points and points over
lasso: a well-formed first box payload makes the handler ignore any
points and lasso data, and with no box payload a non-empty points list
makes it ignore any lasso data; in each case the winning shape's range
is stored. -/
theorem selection_precedence (s : VState) (a c : ℚ) (as cs : List ℚ)
    (bs : List BoxData) (ps : List SelPoint) (ls : List BoxData)
    (p : SelPoint) (ps2 : List SelPoint) (ls2 : List BoxData) :
    handleSelection (some ⟨⟨some (a :: as), some (c :: cs)⟩ :: bs, ps, ls⟩) s
      = handleSelection (some ⟨[⟨some (a :: as), some (c :: cs)⟩], [], []⟩) s ∧
    (∃ x0 x1 y0 y1 : ℚ,
      handleSelection (some ⟨⟨some (a :: as), some (c :: cs)⟩ :: bs, ps, ls⟩) s
        = .ok ⟨some (x0, x1), some (y0, y1)⟩) ∧
    handleSelection (some ⟨[], p :: ps2, ls2⟩) s
      = handleSelection (some ⟨[], p :: ps2, []⟩) s ∧
    (∃ x0 x1 y0 y1 : ℚ,
      handleSelection (some ⟨[], p :: ps2, ls2⟩) s
        = .ok ⟨some (x0, x1), some (y0, y1)⟩) := by
  refine ⟨rfl, ⟨as.foldl min a, as.foldl max a, cs.foldl min c, cs.foldl max c, rfl⟩,
    rfl, ?_⟩
  cases ps2 with
  | nil =>
    exact ⟨p.x - 0.1, p.x + 0.1, p.y - 0.1, p.y + 0.1, rfl⟩
  | cons q rest =>
    exact ⟨((q :: rest).map SelPoint.x).foldl min p.x,
      ((q :: rest).map SelPoint.x).foldl max p.x,
      ((q :: rest).map SelPoint.y).foldl min p.y,
      ((q :: rest).map SelPoint.y).foldl max p.y, rfl⟩

/-- Claim C10: with a non-empty displayed record set and a non-empty
column selection, the rendered table is the selected-column projection
sorted ascending by `Xpca` (a permutation of the projected rows, not the
original order), and the render step succeeds exactly when `'Xpca'` is
among the selected columns — excluding it makes the sort raise. -/
theorem table_sorted_by_xpca (rows : List Row) (cols : List String)
    (_hrows : rows ≠ []) (_hcols : cols ≠ []) :
    ("Xpca" ∈ cols →
      renderTable rows cols = .ok (sortRows (rows.map (projectCols cols))) ∧
      (sortRows (rows.map (projectCols cols))).Perm (rows.map (projectCols cols)) ∧
      List.Sorted rowLE (sortRows (rows.map (projectCols cols)))) ∧
    ("Xpca" ∉ cols → renderTable rows cols = .error ()) := by
  constructor
  · intro hmem
    refine ⟨by simp [renderTable, hmem], ?_, ?_⟩
    · exact List.perm_insertionSort rowLE _
    · exact List.sorted_insertionSort rowLE _
  · intro hmem
    simp [renderTable, hmem]

/-- A two-row frame out of `Xpca` order, for the rendering witness. -/
def exRows2 : List Row :=
  [[("Xpca", Value.vnum 10)], [("Xpca", Value.vnum 0)]]

/-- Witness for C10: rendering with `Xpca` selected succeeds sorted;
rendering with it excluded fails. -/
theorem table_sorted_by_xpca_witness :
    ("Xpca" ∈ ["Xpca"] ∧
      renderTable exRows2 ["Xpca"] = .ok (sortRows (exRows2.map (projectCols ["Xpca"]))) ∧
      List.Sorted rowLE (sortRows (exRows2.map (projectCols ["Xpca"])))) ∧
    ("Xpca" ∉ ["Ypca"] ∧ renderTable exRows2 ["Ypca"] = .error ()) := by
  have h1 := table_sorted_by_xpca exRows2 ["Xpca"] (by decide) (by decide)
  have h2 := table_sorted_by_xpca exRows2 ["Ypca"] (by decide) (by decide)
  exact ⟨⟨by decide, (h1.1 (by decide)).1, (h1.1 (by decide)).2.2⟩,
    ⟨by decide, h2.2 (by decide)⟩⟩

end Pca
